import Mathlib

set_option maxRecDepth 4000

/-!
Shallow embedding of the invoice generator in `app.py` (MR-Danskomsorgspleje).

Conventions of the embedding:
* pandas timestamps are modelled by `Ts`: an integer day number (days since
  1970-01-01, which was a Thursday) plus a sub-day component; `Ts.normalize`
  zeroes the sub-day component, matching `Timestamp.normalize()`.
* Python `float` rate/total arithmetic is modelled exactly over `ℚ` (every
  constant in the source is a short decimal literal).
* A pandas `DataFrame` is a `List Row`; columns that a stage adds are fields
  of `Row` that the stage overwrites.
* Python string primitives (`split`, `strip`, `lower`, slicing, `int(...)`)
  are modelled by structurally recursive functions on `List Char`, written
  to Python's semantics, so that everything evaluates inside the kernel.
-/

/-- A pandas timestamp: integer day number plus sub-day component. -/
structure Ts where
  day : Int
  tod : Nat
deriving DecidableEq, Repr

/-- `Timestamp.normalize()`: drop the time-of-day, keep the date. -/
def Ts.normalize (t : Ts) : Ts := ⟨t.day, 0⟩

/-- `Timestamp.weekday()`: 0 = Monday … 6 = Sunday.  Day 0 (1970-01-01) was a
Thursday, hence the offset 3. -/
def pyWeekday (t : Ts) : Int := (t.day + 3) % 7

/-- One row of the cleaned shift table / of an invoice.  Fields that are only
created later in the pipeline (`Helligdag`, `Takst`, `Samlet`) are carried
along and overwritten by `build_invoice_df`. -/
structure Row where
  Dato : Ts
  Medarbejder : String
  Tidsperiode : String
  StartMin : Int
  Timer : ℚ
  Personale : String
  Jobfunktion : String
  Jobfunktion_raw : String
  Helligdag : String
  Takst : ℚ
  Samlet : ℚ
deriving DecidableEq, Repr

/-- A default row (used only as the `headD` fallback in concrete tests). -/
def row0 : Row := ⟨⟨0, 0⟩, "", "", 0, 0, "", "", "", "", 0, 0⟩

/-- Python `s.split(sep)` for a one-character separator: split on every
occurrence, keeping empty segments (`"".split("-") == [""]`). -/
def pySplitC (sep : Char) : List Char → List (List Char)
  | [] => [[]]
  | c :: cs =>
      let r := pySplitC sep cs
      if c = sep then [] :: r
      else match r with
        | [] => [[c]]
        | h :: t => (c :: h) :: t

/-- Python `s.split()` pieces: split at every character satisfying `p`,
keeping empty segments (callers drop them, as `str.split()` does). -/
def pySplitP (p : Char → Bool) : List Char → List (List Char)
  | [] => [[]]
  | c :: cs =>
      let r := pySplitP p cs
      if p c then [] :: r
      else match r with
        | [] => [[c]]
        | h :: t => (c :: h) :: t

/-- Python `s.strip()`: remove leading and trailing whitespace. -/
def pyStrip (l : List Char) : List Char :=
  ((l.dropWhile Char.isWhitespace).reverse.dropWhile Char.isWhitespace).reverse

/-- The numeric value of an all-digit character list (accumulator form). -/
def digitsValAux (acc : Nat) : List Char → Option Nat
  | [] => some acc
  | c :: cs => if c.isDigit then digitsValAux (acc * 10 + (c.toNat - '0'.toNat)) cs else none

/-- `digitsValAux` from 0, requiring at least one digit. -/
def digitsVal (l : List Char) : Option Nat :=
  if l.isEmpty then none else digitsValAux 0 l

/-- Python `int(s)` on characters: optional sign and decimal digits,
surrounding whitespace allowed; any other input raises (modelled as
`none`). -/
def pyIntL (l : List Char) : Option Int :=
  match pyStrip l with
  | '-' :: rest => (digitsVal rest).map (fun n => -(n : Int))
  | '+' :: rest => (digitsVal rest).map (fun n => (n : Int))
  | l' => (digitsVal l').map (fun n => (n : Int))

/-- `int` applied to a Lean `String`. -/
def pyInt (s : String) : Option Int := pyIntL s.data

/-- Python slicing `s[:n]` (by code points): the first `n` characters. -/
def pyTake (s : String) (n : Nat) : String := String.mk (s.data.take n)

/-- `safe_time_str` (app.py 96-102).  Note: in the source both branches of the
inner conditional return `s[:5]`, which truncates but never pads. -/
def safe_time_str : Option String → String
  | none => ""
  | some s => if 5 ≤ s.length ∧ s.data.getD 2 ' ' = ':' then pyTake s 5 else pyTake s 5

/-- `build_tidsperiode` (app.py 105-106). -/
def build_tidsperiode (start stop : Option String) : String :=
  safe_time_str start ++ "-" ++ safe_time_str stop

/-- `str(tidsperiode).split("-")[0]`: the segment before the first dash. -/
def startSeg (tidsperiode : String) : List Char :=
  (pySplitC '-' tidsperiode.data).headD []

/-- The `try` body of `parse_start_time_to_minutes` (app.py 109-119): `none`
models the `except` path.  Python tuple unpacking `hh, mm = s.split(":")`
requires exactly two parts. -/
def parseStartOpt (tidsperiode : String) : Option Int :=
  let s := pyStrip (startSeg tidsperiode)
  match pySplitC ':' s with
  | [hh, mm] => do
      let h ← pyIntL hh
      let m ← pyIntL mm
      pure (h * 60 + m)
  | _ => none

/-- `parse_start_time_to_minutes` (app.py 109-119): minutes since 00:00, with
silent fallback 0 on any parse failure. -/
def parse_start_time_to_minutes (tidsperiode : String) : Int :=
  (parseStartOpt tidsperiode).getD 0

/-- `time_to_hour` (app.py 122-126): `int(str(t)[:2])`, fallback 0. -/
def time_to_hour (t : List Char) : Int := (pyIntL (t.take 2)).getD 0

/-- `extract_location_dansk` (app.py 196-200).  `str.split("-")` splits on
EVERY dash; `parts[1]` is the text between the first and second dash. -/
def extract_location_dansk (jobfunction : String) : String :=
  if jobfunction = "" then ""
  else
    let parts := pySplitC '-' jobfunction.data
    if 1 < parts.length then String.mk (pyStrip (parts.getD 1 []))
    else String.mk (pyStrip jobfunction.data)

/-- `extract_location_dit` (app.py 203-205): same rule as Dansk. -/
def extract_location_dit (jobfunction : String) : String :=
  extract_location_dansk jobfunction

/-- Split at the first dash only: `some (before, after)`, or `none` when the
text has no dash. -/
def firstDashSplit : List Char → Option (List Char × List Char)
  | [] => none
  | c :: cs =>
      if c = '-' then some ([], cs)
      else match firstDashSplit cs with
        | none => none
        | some (a, b) => some (c :: a, b)

/-- Modelled from the spec's words ("split raw location text on the first
`-` and take the second segment, trimmed") for comparison with
`extract_location_dansk`. -/
def claimedExtract (s : String) : String :=
  if s = "" then ""
  else match firstDashSplit s.data with
    | none => String.mk (pyStrip s.data)
    | some (_, after) => String.mk (pyStrip after)

/-- The first list is an initial segment of the second. -/
def startsWithL : List Char → List Char → Bool
  | [], _ => true
  | _ :: _, [] => false
  | p :: ps, c :: cs => if p = c then startsWithL ps cs else false

/-- Substring containment on character lists. -/
def hasSubL (pat l : List Char) : Bool :=
  (List.range (l.length + 1)).any (fun i => startsWithL pat (l.drop i))

/-- Python `s.lower()` (ASCII, which covers the source's data). -/
def lowerL (l : List Char) : List Char := l.map Char.toLower

/-- `Series.str.contains("kirsten", case=False)` (app.py 478): the pattern has
no regex metacharacters, so it is a case-insensitive substring test. -/
def hasKirsten (s : String) : Bool := hasSubL "kirsten".data (lowerL s.data)

/-- `normalize_personale` (app.py 74-89): replace NBSP by space, strip, lower,
collapse whitespace runs, special-case "assistent 2", then ordered substring
checks. -/
def normalize_personale (val : Option String) : String :=
  match val with
  | none => ""
  | some v =>
      let l0 := v.data.map (fun c => if c = '\u00A0' then ' ' else c)
      let l1 := lowerL (pyStrip l0)
      let words := (pySplitP Char.isWhitespace l1).filter (fun w => ¬ w.isEmpty)
      let s2 := List.intercalate [' '] words
      let s := if s2 = "assistent 2".data then "assistent".data else s2
      if hasSubL "ufagl".data s then "ufaglært"
      else if hasSubL "hjælp".data s then "hjælper"
      else if hasSubL "assist".data s then "assistent"
      else if hasSubL "sygepl".data s then "sygeplejerske"
      else String.mk s

/-- `beregn_takst_ajour` (app.py 212-232). -/
def beregn_takst_ajour (r : Row) : ℚ :=
  let start_hour := time_to_hour (startSeg r.Tidsperiode)
  let dag : Bool := start_hour < 15
  let weekend : Bool := 5 ≤ pyWeekday r.Dato
  if r.Personale = "ufaglært" then
    if r.Helligdag = "Ja" then (if dag then 215 else 220)
    else if weekend && dag then 215 else if weekend then 220
    else if dag then 175 else 210
  else if r.Personale = "hjælper" then
    if r.Helligdag = "Ja" then (if dag then 215 else 220)
    else if weekend && dag then 215 else if weekend then 220
    else if dag then 200 else 210
  else if r.Personale = "assistent" then
    if r.Helligdag = "Ja" then (if dag then 230 else 240)
    else if weekend && dag then 230 else if weekend then 240
    else if dag then 220 else 225
  else 0

/-- `beregn_takst_dansk` (app.py 236-243).  Note: it never looks at
`Personale`. -/
def beregn_takst_dansk (r : Row) : ℚ :=
  if r.Helligdag = "Ja" then 350
  else if 5 ≤ pyWeekday r.Dato then 300
  else if 15 ≤ time_to_hour (startSeg r.Tidsperiode) then 280
  else 255

/-- One entry of `DITVIKAR_RATES` (app.py 247-272). -/
structure DitRates where
  weekday_day : ℚ
  weekday_night : ℚ
  weekend_day : ℚ
  weekend_night : ℚ
  holiday_day : ℚ
  holiday_night : ℚ
deriving DecidableEq, Repr

/-- `DITVIKAR_RATES` (app.py 247-272) as a lookup (`dict.get`). -/
def DITVIKAR_RATES (p : String) : Option DitRates :=
  if p = "hjælper" then some ⟨333.00, 406.26, 499.50, 572.76, 666.00, 739.26⟩
  else if p = "assistent" then some ⟨353.00, 430.66, 529.50, 607.16, 706.00, 783.66⟩
  else if p = "sygeplejerske" then some ⟨386.00, 482.50, 579.00, 675.50, 772.00, 868.50⟩
  else none

/-- `is_day_window` (app.py 274-279): 06:00 ≤ start < 15:00. -/
def is_day_window (start_min : Int) : Bool :=
  6 * 60 ≤ start_min && start_min < 15 * 60

/-- `beregn_takst_dit` (app.py 281-297). -/
def beregn_takst_dit (r : Row) : ℚ :=
  match DITVIKAR_RATES r.Personale with
  | none => 0
  | some rates =>
      let day : Bool := is_day_window (parse_start_time_to_minutes r.Tidsperiode)
      if r.Helligdag = "Ja" then (if day then rates.holiday_day else rates.holiday_night)
      else if 5 ≤ pyWeekday r.Dato then (if day then rates.weekend_day else rates.weekend_night)
      else if day then rates.weekday_day else rates.weekday_night

/-- The sort key of `build_invoice_df` (app.py 399):
`(Jobfunktion, Dato, StartMin, Medarbejder)`, all ascending; a pandas
datetime column compares lexicographically by (day, time-of-day). -/
def sortKey (r : Row) : Lex (String × Lex (Int × Lex (Nat × Lex (Int × String)))) :=
  toLex (r.Jobfunktion, toLex (r.Dato.day, toLex (r.Dato.tod, toLex (r.StartMin, r.Medarbejder))))

/-- Strict lexicographic comparison of character lists, as a computable
Boolean (Lean's `String` order does not evaluate inside the kernel). -/
def strLtL : List Char → List Char → Bool
  | [], [] => false
  | [], _ :: _ => true
  | _ :: _, [] => false
  | a :: as, b :: bs => if a < b then true else if b < a then false else strLtL as bs

/-- Computable version of `sortKey a ≤ sortKey b` (proved equivalent in
`rowLe_iff`). -/
def rowLe (a b : Row) : Bool :=
  strLtL a.Jobfunktion.data b.Jobfunktion.data ||
  (decide (a.Jobfunktion = b.Jobfunktion) &&
    (decide (a.Dato.day < b.Dato.day) ||
      (decide (a.Dato.day = b.Dato.day) &&
        (decide (a.Dato.tod < b.Dato.tod) ||
          (decide (a.Dato.tod = b.Dato.tod) &&
            (decide (a.StartMin < b.StartMin) ||
              (decide (a.StartMin = b.StartMin) &&
                (strLtL a.Medarbejder.data b.Medarbejder.data ||
                  decide (a.Medarbejder = b.Medarbejder)))))))))

/-- Row comparison used for sorting invoice lines. -/
def sortLE (a b : Row) : Prop := rowLe a b = true

instance : DecidableRel sortLE :=
  fun a b => inferInstanceAs (Decidable (rowLe a b = true))

/-- The loop body of `build_invoice_df` (app.py 392-396) on one row: set the
`Helligdag` flag from the (normalized) holiday set, compute the rate on the
flagged row, and set `Samlet = Timer * Takst`. -/
def buildLine (helligdage : List Ts) (rate : Row → ℚ) (r : Row) : Row :=
  let hd := if r.Dato.normalize ∈ helligdage.map Ts.normalize then "Ja" else "Nej"
  let r1 := { r with Helligdag := hd }
  let t := rate r1
  { r1 with Takst := t, Samlet := r.Timer * t }

/-- `build_invoice_df` (app.py 389-401): flag holidays, compute rates and line
totals, sort ascending by `(Jobfunktion, Dato, StartMin, Medarbejder)`.
(The source's final column drop is mere projection and is not modelled;
the sort, pandas `sort_values`, is modelled by insertion sort on the same
key — claims depend only on the ordering of the keys.) -/
def build_invoice_df (df : List Row) (helligdage : List Ts) (rate : Row → ℚ) : List Row :=
  List.insertionSort sortLE (df.map (buildLine helligdage rate))

/-- The key triple the Kirsten-surcharge merge joins on (app.py 481). -/
def tripleOf (r : Row) : Ts × String × String := (r.Dato, r.Medarbejder, r.Tidsperiode)

/-- `kirsten_flag` (app.py 477-479): per clean row, its join key and whether
its raw location text contains "kirsten" case-insensitively. -/
def kirstenFlags (df : List Row) : List ((Ts × String × String) × Bool) :=
  df.map (fun r => (tripleOf r, hasKirsten r.Jobfunktion_raw))

/-- The left merge of app.py 481-482: each invoice line is paired with every
flag row sharing its key; an unmatched line gets `False` (`fillna(False)`). -/
def mergeFlag (inv : List Row) (flags : List ((Ts × String × String) × Bool)) :
    List (Row × Bool) :=
  inv.flatMap (fun l =>
    let ms := flags.filter (fun f => decide (f.1 = tripleOf l))
    if ms.isEmpty then [(l, false)] else ms.map (fun f => (l, f.2)))

/-- app.py 484-485: add 10 to `Takst` on flagged lines, then recompute
`Samlet = Timer * Takst` on every line. -/
def apply_kirsten (p : Row × Bool) : Row :=
  let t := if p.2 then p.1.Takst + 10 else p.1.Takst
  { p.1 with Takst := t, Samlet := p.1.Timer * t }

/-- The Kirsten surcharge step of `inv_ajour` (app.py 477-486). -/
def surcharge_step (inv df : List Row) : List Row :=
  (mergeFlag inv (kirstenFlags df)).map apply_kirsten

/-- The full Ajour invoice pipeline (app.py 474-486), starting from the
already job-function-mapped `df_ajour`. -/
def inv_ajour_pipeline (df : List Row) (helligdage : List Ts) : List Row :=
  surcharge_step (build_invoice_df df helligdage beregn_takst_ajour) df

/-- The flag value the merge assigns to line `l` when its key matches at most
one flag row (first match, `false` when unmatched). -/
def kflag (flags : List ((Ts × String × String) × Bool)) (l : Row) : Bool :=
  match flags.filter (fun f => decide (f.1 = tripleOf l)) with
  | [] => false
  | f :: _ => f.2

/-- The subtotal accumulated by `generer_pdf` (app.py 349-366): the running
sum of the `Samlet` column. -/
def pdfSubtotal (inv : List Row) : ℚ := inv.foldl (fun acc r => acc + r.Samlet) 0

/-- `moms` (app.py 368): 25% of the subtotal. -/
def pdfMoms (inv : List Row) : ℚ := pdfSubtotal inv * (25 / 100)

/-- `Total inkl. moms` (app.py 373). -/
def pdfGrand (inv : List Row) : ℚ := pdfSubtotal inv + pdfMoms inv

/-- The day/night test of the Ajour policy (app.py 216-217): start hour < 15. -/
def ajourDag (r : Row) : Bool := time_to_hour (startSeg r.Tidsperiode) < 15

/-- The day/night test of the Dit Vikarbureau policy (app.py 290-291). -/
def ditDay (r : Row) : Bool := is_day_window (parse_start_time_to_minutes r.Tidsperiode)

/-- The holiday tier of the Ajour policy: the constants of the `helligdag`
branches of app.py 221/225/229 (0 for an unmapped category).  Reads only the
category and the time window, never the date. -/
def ajourHolidayRate (r : Row) : ℚ :=
  if r.Personale = "ufaglært" then (if ajourDag r then 215 else 220)
  else if r.Personale = "hjælper" then (if ajourDag r then 215 else 220)
  else if r.Personale = "assistent" then (if ajourDag r then 230 else 240)
  else 0

/-- The weekend tier of the Ajour policy (app.py 222/226/230, first two
ternary arms). -/
def ajourWeekendRate (r : Row) : ℚ :=
  if r.Personale = "ufaglært" then (if ajourDag r then 215 else 220)
  else if r.Personale = "hjælper" then (if ajourDag r then 215 else 220)
  else if r.Personale = "assistent" then (if ajourDag r then 230 else 240)
  else 0

/-- The weekday tier of the Ajour policy (app.py 222/226/230, last two
ternary arms). -/
def ajourWeekdayRate (r : Row) : ℚ :=
  if r.Personale = "ufaglært" then (if ajourDag r then 175 else 210)
  else if r.Personale = "hjælper" then (if ajourDag r then 200 else 210)
  else if r.Personale = "assistent" then (if ajourDag r then 220 else 225)
  else 0

/-- The weekday tier of the Dansk policy (app.py 242-243). -/
def danskWeekdayRate (r : Row) : ℚ :=
  if 15 ≤ time_to_hour (startSeg r.Tidsperiode) then 280 else 255

/-- The holiday tier of the Dit Vikarbureau policy (app.py 293-294). -/
def ditHolidayRate (r : Row) : ℚ :=
  match DITVIKAR_RATES r.Personale with
  | none => 0
  | some t => if ditDay r then t.holiday_day else t.holiday_night

/-- The weekend tier of the Dit Vikarbureau policy (app.py 295-296). -/
def ditWeekendRate (r : Row) : ℚ :=
  match DITVIKAR_RATES r.Personale with
  | none => 0
  | some t => if ditDay r then t.weekend_day else t.weekend_night

/-- The weekday tier of the Dit Vikarbureau policy (app.py 297). -/
def ditWeekdayRate (r : Row) : ℚ :=
  match DITVIKAR_RATES r.Personale with
  | none => 0
  | some t => if ditDay r then t.weekday_day else t.weekday_night

/-- Weekday-day column of the Ajour table, per category (app.py 222/226/230). -/
def ajourDayRate (p : String) : ℚ :=
  if p = "ufaglært" then 175 else if p = "hjælper" then 200
  else if p = "assistent" then 220 else 0

/-- Weekday-night column of the Dit Vikarbureau table, per category. -/
def ditNightRate (p : String) : ℚ :=
  match DITVIKAR_RATES p with
  | none => 0
  | some t => t.weekday_night

/-- The `Helligdag` column value `build_invoice_df` assigns (app.py 393). -/
def helligFlag (helligdage : List Ts) (r : Row) : String :=
  if r.Dato.normalize ∈ helligdage.map Ts.normalize then "Ja" else "Nej"

/-- The base Ajour rate of a clean row, before the Kirsten surcharge:
`beregn_takst_ajour` applied to the row with its holiday flag set. -/
def baseRate (helligdage : List Ts) (r : Row) : ℚ :=
  beregn_takst_ajour { r with Helligdag := helligFlag helligdage r }

/-- The +10 rewrite applied to a surcharged line (app.py 484-485). -/
def surchRow (l : Row) : Row :=
  { l with Takst := l.Takst + 10, Samlet := l.Timer * (l.Takst + 10) }

/-- Fixture: the Saturday 2024-01-06 shift (day 19728). -/
def rSat5 : Row := ⟨⟨19728, 0⟩, "s", "08:00-16:00", 480, 8, "hjælper", "loc", "", "", 0, 0⟩

/-- Fixture: the Monday 2024-01-08 shift (day 19730). -/
def rMon5 : Row := ⟨⟨19730, 0⟩, "m", "07:00-15:00", 420, 8, "hjælper", "loc", "", "", 0, 0⟩

/-- A weekday row with an unrecognized staff category ("kok"). -/
def crB : Row := ⟨⟨19730, 0⟩, "x", "08:00-16:00", 480, 8, "kok", "loc", "raw", "Nej", 0, 0⟩

/-- A weekday row with an unparseable time window. -/
def crM : Row := ⟨⟨19730, 0⟩, "x", "banana", 0, 8, "hjælper", "loc", "raw", "Nej", 0, 0⟩

/-- A holiday fixture row (its date appears in `hol1`). -/
def rH : Row := ⟨⟨19730, 0⟩, "x", "08:00-16:00", 480, 8, "hjælper", "loc", "raw", "", 0, 0⟩

/-- Holiday list whose entry carries a nonzero time-of-day, so that the
`normalize` in the holiday-membership test is exercised. -/
def hol1 : List Ts := [⟨19730, 300⟩]

/-- A clean row whose raw location text contains "Kirsten". -/
def rK : Row := ⟨⟨19730, 0⟩, "x", "07:00-15:00", 420, 8, "hjælper", "køge", "Hos Kirsten", "", 0, 0⟩

/-- Two clean rows with distinct (date, employee, window) triples; the first
has a "kirsten" raw location. -/
def wdf : List Row :=
  [⟨⟨19730, 0⟩, "a", "07:00-15:00", 420, 8, "hjælper", "køge", "Plejehjem Kirsten", "", 0, 0⟩,
   ⟨⟨19728, 0⟩, "b", "08:00-16:00", 480, 6, "assistent", "andet", "Herlev center", "", 0, 0⟩]

/-- Three-line fixture of the totals claim: hours 8, 6, 10. -/
def df6 : List Row :=
  [⟨⟨19730, 0⟩, "a", "07:00-15:00", 420, 8, "hjælper", "loc", "", "", 0, 0⟩,
   ⟨⟨19731, 0⟩, "b", "08:00-16:00", 480, 6, "hjælper", "loc", "", "", 0, 0⟩,
   ⟨⟨19732, 0⟩, "c", "09:00-17:00", 540, 10, "hjælper", "loc", "", "", 0, 0⟩]

/-- Caller-supplied rate function of the totals fixture: rates 210, 255, 300. -/
def rate6 (r : Row) : ℚ :=
  if r.Medarbejder = "a" then 210 else if r.Medarbejder = "b" then 255 else 300

/-- `strLtL` computes the core lexicographic order on character lists. -/
theorem strLtL_iff : ∀ a b : List Char, strLtL a b = true ↔ List.lt a b := by
  intro a
  induction a with
  | nil =>
      intro b
      cases b with
      | nil =>
          simp only [strLtL, Bool.false_eq_true, false_iff]
          exact fun h => by cases h
      | cons c cs =>
          simp only [strLtL, true_iff]
          exact List.lt.nil c cs
  | cons x xs ih =>
      intro b
      cases b with
      | nil =>
          simp only [strLtL, Bool.false_eq_true, false_iff]
          exact fun h => by cases h
      | cons y ys =>
          simp only [strLtL]
          by_cases hxy : x < y
          · simp only [hxy, if_true, true_iff]
            exact List.lt.head _ _ hxy
          · by_cases hyx : y < x
            · simp only [hxy, hyx, if_false, if_true, Bool.false_eq_true, false_iff]
              intro h
              cases h with
              | head _ _ h' => exact absurd h' hxy
              | tail _ h2 _ => exact absurd hyx h2
            · simp only [hxy, hyx, if_false]
              rw [ih ys]
              constructor
              · exact fun h => List.lt.tail hxy hyx h
              · intro h
                cases h with
                | head _ _ h' => exact absurd h' hxy
                | tail _ _ h3 => exact h3

/-- `strLtL` on the character data computes `<` on strings. -/
theorem strLt_iff (a b : String) : strLtL a.data b.data = true ↔ a < b := by
  rw [String.lt_iff_toList_lt]
  exact (strLtL_iff a.data b.data).trans (List.lt_iff_lex_lt a.data b.data)

/-- The Boolean row comparison computes the lexicographic key order. -/
theorem rowLe_iff (a b : Row) : sortLE a b ↔ sortKey a ≤ sortKey b := by
  unfold sortLE rowLe sortKey
  rw [Prod.Lex.le_iff, Prod.Lex.le_iff, Prod.Lex.le_iff, Prod.Lex.le_iff]
  simp only [Bool.or_eq_true, Bool.and_eq_true, decide_eq_true_eq, strLt_iff,
    le_iff_lt_or_eq]

/-- `sortLE` is total. -/
theorem sortLE_total : ∀ a b : Row, sortLE a b ∨ sortLE b a := fun a b =>
  (le_total (sortKey a) (sortKey b)).imp (rowLe_iff a b).mpr (rowLe_iff b a).mpr

/-- `sortLE` is transitive. -/
theorem sortLE_trans : ∀ a b c : Row, sortLE a b → sortLE b c → sortLE a c :=
  fun a b c h1 h2 =>
    (rowLe_iff a c).mpr (le_trans ((rowLe_iff a b).mp h1) ((rowLe_iff b c).mp h2))

/-- Membership in a built invoice is membership in the per-row image. -/
theorem mem_build_iff {df : List Row} {hol : List Ts} {rate : Row → ℚ} {l : Row} :
    l ∈ build_invoice_df df hol rate ↔ ∃ r ∈ df, buildLine hol rate r = l := by
  unfold build_invoice_df
  rw [List.mem_insertionSort, List.mem_map]

/-- Every line of a built invoice satisfies `Samlet = Timer * Takst`. -/
theorem build_samlet {df : List Row} {hol : List Ts} {rate : Row → ℚ} {l : Row}
    (hl : l ∈ build_invoice_df df hol rate) : l.Samlet = l.Timer * l.Takst := by
  obtain ⟨r, _, rfl⟩ := mem_build_iff.mp hl
  rfl

/-- C7 — counterexample.  On "a-b-c" the source returns "b" (the text between
the first and second dash), not "b-c" (the result of splitting at the first
dash only, which is what the claim describes). -/
theorem claim7_counterexample :
    extract_location_dansk "a-b-c" ≠ claimedExtract "a-b-c"
    ∧ extract_location_dansk "a-b-c" = "b" ∧ claimedExtract "a-b-c" = "b-c" := by
  decide

/-- C7 (amended) — the B/C location extraction splits on every dash and
returns the trimmed segment at index 1 (the text between the first and second
dash) when there are at least two segments; with no dash it returns the whole
trimmed string; empty input gives ""; and the Dit rule is exactly the Dansk
rule. -/
theorem claim7_amended_thm :
    (∀ s, extract_location_dit s = extract_location_dansk s)
    ∧ extract_location_dansk "" = ""
    ∧ (∀ s, ¬ 1 < (pySplitC '-' s.data).length →
        extract_location_dansk s = String.mk (pyStrip s.data))
    ∧ (∀ s, s ≠ "" → 1 < (pySplitC '-' s.data).length →
        extract_location_dansk s = String.mk (pyStrip ((pySplitC '-' s.data).getD 1 []))) := by
  refine ⟨fun s => rfl, rfl, ?_, ?_⟩
  · intro s h
    by_cases hs : s = ""
    · subst hs; rfl
    · simp [extract_location_dansk, hs, h]
  · intro s hs h
    simp [extract_location_dansk, hs, h]

/-- C7 — witness for the amended claim at a concrete input. -/
theorem claim7_witness :
    extract_location_dansk "Ajour - Herlev"
      = String.mk (pyStrip ((pySplitC '-' "Ajour - Herlev".data).getD 1 [])) :=
  claim7_amended_thm.2.2.2 "Ajour - Herlev" (by decide) (by decide)

/-- C8 — counterexample.  A four-character time value is returned unchanged:
the source truncates to at most five characters but never pads, so the result
is not always a 5-character string. -/
theorem claim8_counterexample :
    (safe_time_str (some "8:00")).length ≠ 5 ∧ safe_time_str (some "8:00") = "8:00" := by
  decide

/-- C8 (amended) — the normalizer truncates the raw value to its first five
characters (no padding), a missing value yields "", inputs of length ≥ 5 do
yield 5-character strings, and the window is the two results joined by "-". -/
theorem claim8_amended_thm :
    safe_time_str none = ""
    ∧ (∀ s, safe_time_str (some s) = pyTake s 5)
    ∧ (∀ s : String, 5 ≤ s.length → (safe_time_str (some s)).length = 5)
    ∧ (∀ a b, build_tidsperiode a b = safe_time_str a ++ "-" ++ safe_time_str b) := by
  refine ⟨rfl, fun s => by simp [safe_time_str], ?_, fun a b => rfl⟩
  intro s h
  have hlen : s.length = s.data.length := rfl
  simp only [safe_time_str, ite_self, pyTake]
  show (s.data.take 5).length = 5
  rw [List.length_take]
  omega

/-- C8 — witness for the amended claim at a concrete input. -/
theorem claim8_witness : (safe_time_str (some "12:30:00")).length = 5 :=
  claim8_amended_thm.2.2.1 "12:30:00" (by decide)

/-- C2 — counterexample.  "kok" is a category no policy recognizes (the
normalizer passes it through, the Dit table has no entry for it), yet the
Dansk rate function bills it at 255, not 0: `beregn_takst_dansk` never
inspects the staff category. -/
theorem claim2_counterexample :
    beregn_takst_dansk crB = 255 ∧ (255 : ℚ) ≠ 0
    ∧ DITVIKAR_RATES crB.Personale = none
    ∧ normalize_personale (some "kok") = "kok" :=
  ⟨by decide, by norm_num, by decide, by decide⟩

/-- C2 (amended) — for a category its policy does not recognize, the Ajour
rate function returns 0 and the Dit rate function returns 0, regardless of
every other field; the Dansk rate function ignores the staff category
entirely, so it returns its ordinary date/time-based rate rather than 0. -/
theorem claim2_amended_thm :
    (∀ r : Row, r.Personale ≠ "ufaglært" → r.Personale ≠ "hjælper" →
        r.Personale ≠ "assistent" → beregn_takst_ajour r = 0)
    ∧ (∀ (r : Row) (p : String),
        beregn_takst_dansk { r with Personale := p } = beregn_takst_dansk r)
    ∧ (∀ r : Row, DITVIKAR_RATES r.Personale = none → beregn_takst_dit r = 0) := by
  refine ⟨?_, fun r p => rfl, ?_⟩
  · intro r h1 h2 h3
    simp [beregn_takst_ajour, h1, h2, h3]
  · intro r h
    simp [beregn_takst_dit, h]

/-- C2 — witness: the Ajour policy bills the unrecognized category "kok"
at 0. -/
theorem claim2_witness : beregn_takst_ajour crB = 0 :=
  claim2_amended_thm.1 crB (by decide) (by decide) (by decide)

/-- C5 — counterexample.  With a Saturday 2024-01-06 "08:00-16:00" shift and
a Monday 2024-01-08 "07:00-15:00" shift at the same location, the invoice
does NOT put the Monday shift first: the sort is ascending by date inside a
location, so the Saturday (the earlier date) comes first. -/
theorem claim5_counterexample :
    ((build_invoice_df [rMon5, rSat5] [] beregn_takst_dansk).headD row0).Dato
      ≠ (⟨19730, 0⟩ : Ts) := by
  decide

/-- C5 (amended) — on that fixture the invoice orders the Saturday
(2024-01-06, day 19728) shift first and the Monday (2024-01-08, day 19730)
shift second. -/
theorem claim5_amended_thm :
    (build_invoice_df [rMon5, rSat5] [] beregn_takst_dansk).map (fun r => r.Dato)
      = [⟨19728, 0⟩, ⟨19730, 0⟩] := by
  decide

/-- On a holiday-flagged row the Ajour rate is its holiday tier. -/
theorem ajour_holiday {r : Row} (h : r.Helligdag = "Ja") :
    beregn_takst_ajour r = ajourHolidayRate r := by
  simp only [beregn_takst_ajour, ajourHolidayRate, ajourDag, h, if_true]

/-- On a non-holiday weekend row the Ajour rate is its weekend tier. -/
theorem ajour_weekend {r : Row} (h1 : r.Helligdag ≠ "Ja") (h2 : 5 ≤ pyWeekday r.Dato) :
    beregn_takst_ajour r = ajourWeekendRate r := by
  simp only [beregn_takst_ajour, ajourWeekendRate, ajourDag, h1, h2, if_false,
    decide_true_eq_true, decide_True, Bool.true_and, if_true]

/-- On a non-holiday weekday row the Ajour rate is its weekday tier. -/
theorem ajour_weekday {r : Row} (h1 : r.Helligdag ≠ "Ja") (h2 : ¬ 5 ≤ pyWeekday r.Dato) :
    beregn_takst_ajour r = ajourWeekdayRate r := by
  simp only [beregn_takst_ajour, ajourWeekdayRate, ajourDag, h1, h2, if_false,
    decide_false_eq_false, decide_False, Bool.false_and, if_true]
  simp

/-- On a holiday-flagged row the Dit rate is its holiday tier. -/
theorem dit_holiday {r : Row} (h : r.Helligdag = "Ja") :
    beregn_takst_dit r = ditHolidayRate r := by
  unfold beregn_takst_dit ditHolidayRate ditDay
  cases hm : DITVIKAR_RATES r.Personale with
  | none => rfl
  | some t => simp [h]

/-- On a non-holiday weekend row the Dit rate is its weekend tier. -/
theorem dit_weekend {r : Row} (h1 : r.Helligdag ≠ "Ja") (h2 : 5 ≤ pyWeekday r.Dato) :
    beregn_takst_dit r = ditWeekendRate r := by
  unfold beregn_takst_dit ditWeekendRate ditDay
  cases hm : DITVIKAR_RATES r.Personale with
  | none => rfl
  | some t => simp [h1, h2]

/-- On a non-holiday weekday row the Dit rate is its weekday tier. -/
theorem dit_weekday {r : Row} (h1 : r.Helligdag ≠ "Ja") (h2 : ¬ 5 ≤ pyWeekday r.Dato) :
    beregn_takst_dit r = ditWeekdayRate r := by
  unfold beregn_takst_dit ditWeekdayRate ditDay
  cases hm : DITVIKAR_RATES r.Personale with
  | none => rfl
  | some t => simp [h1, h2]

/-- On a holiday-flagged row the Dansk rate is 350. -/
theorem dansk_holiday {r : Row} (h : r.Helligdag = "Ja") : beregn_takst_dansk r = 350 := by
  simp [beregn_takst_dansk, h]

/-- On a non-holiday weekend row the Dansk rate is 300. -/
theorem dansk_weekend {r : Row} (h1 : r.Helligdag ≠ "Ja") (h2 : 5 ≤ pyWeekday r.Dato) :
    beregn_takst_dansk r = 300 := by
  simp [beregn_takst_dansk, h1, h2]

/-- On a non-holiday weekday row the Dansk rate is its weekday tier. -/
theorem dansk_weekday {r : Row} (h1 : r.Helligdag ≠ "Ja") (h2 : ¬ 5 ≤ pyWeekday r.Dato) :
    beregn_takst_dansk r = danskWeekdayRate r := by
  simp [beregn_takst_dansk, danskWeekdayRate, h1, h2]

/-- The `Takst` a built line carries is the rate of the flagged row. -/
theorem buildLine_takst (hol : List Ts) (rate : Row → ℚ) (r : Row) :
    (buildLine hol rate r).Takst = rate { r with Helligdag := helligFlag hol r } := rfl

/-- C1 — holiday precedence.  (i)-(iii): every invoice line whose normalized
date lies in the (normalized) holiday set is billed at its policy's holiday
tier, a function of category and day/night window only; (iv): on a
holiday-flagged row each rate function is independent of the date (hence of
the weekday); (v)/(vi): without the holiday flag, the weekend branch applies
before the weekday day/night branch. -/
theorem claim1_thm :
    (∀ (df : List Row) (hol : List Ts) (l : Row),
        l ∈ build_invoice_df df hol beregn_takst_ajour →
        l.Dato.normalize ∈ hol.map Ts.normalize → l.Takst = ajourHolidayRate l)
    ∧ (∀ (df : List Row) (hol : List Ts) (l : Row),
        l ∈ build_invoice_df df hol beregn_takst_dansk →
        l.Dato.normalize ∈ hol.map Ts.normalize → l.Takst = 350)
    ∧ (∀ (df : List Row) (hol : List Ts) (l : Row),
        l ∈ build_invoice_df df hol beregn_takst_dit →
        l.Dato.normalize ∈ hol.map Ts.normalize → l.Takst = ditHolidayRate l)
    ∧ (∀ (r : Row) (d : Ts), r.Helligdag = "Ja" →
        beregn_takst_ajour { r with Dato := d } = beregn_takst_ajour r
        ∧ beregn_takst_dansk { r with Dato := d } = beregn_takst_dansk r
        ∧ beregn_takst_dit { r with Dato := d } = beregn_takst_dit r)
    ∧ (∀ r : Row, r.Helligdag ≠ "Ja" → 5 ≤ pyWeekday r.Dato →
        beregn_takst_ajour r = ajourWeekendRate r ∧ beregn_takst_dansk r = 300
        ∧ beregn_takst_dit r = ditWeekendRate r)
    ∧ (∀ r : Row, r.Helligdag ≠ "Ja" → ¬ 5 ≤ pyWeekday r.Dato →
        beregn_takst_ajour r = ajourWeekdayRate r ∧ beregn_takst_dansk r = danskWeekdayRate r
        ∧ beregn_takst_dit r = ditWeekdayRate r) := by
  refine ⟨?_, ?_, ?_, ?_, ?_, ?_⟩
  · intro df hol l hl hmem
    obtain ⟨r, _, rfl⟩ := mem_build_iff.mp hl
    rw [buildLine_takst]
    have hflag : helligFlag hol r = "Ja" := if_pos hmem
    rw [ajour_holiday (show ({ r with Helligdag := helligFlag hol r } : Row).Helligdag = "Ja" from hflag)]
    rfl
  · intro df hol l hl hmem
    obtain ⟨r, _, rfl⟩ := mem_build_iff.mp hl
    rw [buildLine_takst]
    have hflag : helligFlag hol r = "Ja" := if_pos hmem
    exact dansk_holiday (show ({ r with Helligdag := helligFlag hol r } : Row).Helligdag = "Ja" from hflag)
  · intro df hol l hl hmem
    obtain ⟨r, _, rfl⟩ := mem_build_iff.mp hl
    rw [buildLine_takst]
    have hflag : helligFlag hol r = "Ja" := if_pos hmem
    rw [dit_holiday (show ({ r with Helligdag := helligFlag hol r } : Row).Helligdag = "Ja" from hflag)]
    rfl
  · intro r d h
    refine ⟨?_, ?_, ?_⟩
    · rw [ajour_holiday (show ({ r with Dato := d } : Row).Helligdag = "Ja" from h),
        ajour_holiday h]
      rfl
    · rw [dansk_holiday (show ({ r with Dato := d } : Row).Helligdag = "Ja" from h),
        dansk_holiday h]
    · rw [dit_holiday (show ({ r with Dato := d } : Row).Helligdag = "Ja" from h),
        dit_holiday h]
      rfl
  · intro r h1 h2
    exact ⟨ajour_weekend h1 h2, dansk_weekend h1 h2, dit_weekend h1 h2⟩
  · intro r h1 h2
    exact ⟨ajour_weekday h1 h2, dansk_weekday h1 h2, dit_weekday h1 h2⟩

/-- The `headD` of a nonempty list is a member. -/
theorem headD_mem {α : Type} {l : List α} (h : l ≠ []) (d : α) : l.headD d ∈ l := by
  cases l with
  | nil => exact absurd rfl h
  | cons a t => exact List.mem_cons_self a t

/-- C1 — witness: a concrete holiday invoice line for each hypothesis of the
first component (the holiday date in `hol1` carries a nonzero time of day,
so the membership test goes through `normalize`). -/
theorem claim1_witness :
    ((build_invoice_df [rH] hol1 beregn_takst_ajour).headD row0).Takst
      = ajourHolidayRate ((build_invoice_df [rH] hol1 beregn_takst_ajour).headD row0) :=
  claim1_thm.1 [rH] hol1 ((build_invoice_df [rH] hol1 beregn_takst_ajour).headD row0)
    (headD_mem (by decide) row0) (by decide)

/-- C10 — on a row whose time window defeats both time parsers, the silent
fallback start 0 selects the DAY tier for the Ajour policy (0 < 15) and the
weekday-day 255 for the Dansk policy, but the NIGHT tier for the Dit policy
(0 is outside the 06:00-15:00 day window). -/
theorem claim10_thm (r : Row)
    (hfail1 : pyIntL ((startSeg r.Tidsperiode).take 2) = none)
    (hfail2 : parseStartOpt r.Tidsperiode = none)
    (hhel : r.Helligdag ≠ "Ja") (hwd : ¬ 5 ≤ pyWeekday r.Dato) :
    time_to_hour (startSeg r.Tidsperiode) = 0
    ∧ parse_start_time_to_minutes r.Tidsperiode = 0
    ∧ is_day_window 0 = false
    ∧ beregn_takst_ajour r = ajourDayRate r.Personale
    ∧ beregn_takst_dansk r = 255
    ∧ beregn_takst_dit r = ditNightRate r.Personale := by
  have h0 : time_to_hour (startSeg r.Tidsperiode) = 0 := by
    simp [time_to_hour, hfail1]
  have hp : parse_start_time_to_minutes r.Tidsperiode = 0 := by
    simp [parse_start_time_to_minutes, hfail2]
  refine ⟨h0, hp, rfl, ?_, ?_, ?_⟩
  · rw [ajour_weekday hhel hwd]
    simp [ajourWeekdayRate, ajourDag, ajourDayRate, h0]
  · rw [dansk_weekday hhel hwd]
    simp [danskWeekdayRate, h0]
  · rw [dit_weekday hhel hwd]
    cases hm : DITVIKAR_RATES r.Personale with
    | none => simp [ditWeekdayRate, ditNightRate, hm]
    | some t => simp [ditWeekdayRate, ditNightRate, ditDay, hm, hp, is_day_window]

/-- C10 — witness on the concrete malformed window "banana". -/
theorem claim10_witness :
    beregn_takst_ajour crM = ajourDayRate crM.Personale
    ∧ beregn_takst_dansk crM = 255
    ∧ beregn_takst_dit crM = ditNightRate crM.Personale := by
  have h := claim10_thm crM (by decide) (by decide) (by decide) (by decide)
  exact ⟨h.2.2.2.1, h.2.2.2.2.1, h.2.2.2.2.2⟩

/-- C4 — every built invoice is sorted: any earlier line's key
`(Jobfunktion, Dato, StartMin, Medarbejder)` is ≤ any later line's key. -/
theorem claim4_thm (df : List Row) (hol : List Ts) (rate : Row → ℚ) :
    List.Pairwise (fun a b => sortKey a ≤ sortKey b) (build_invoice_df df hol rate) := by
  have hs : List.Sorted sortLE (build_invoice_df df hol rate) := by
    unfold build_invoice_df
    haveI : IsTotal Row sortLE := ⟨sortLE_total⟩
    haveI : IsTrans Row sortLE := ⟨sortLE_trans⟩
    exact List.sorted_insertionSort sortLE _
  exact List.Pairwise.imp (fun h => (rowLe_iff _ _).mp h) hs

/-- Folding `+ Samlet` over a list sums the `Samlet` column. -/
theorem foldl_add_samlet (l : List Row) :
    ∀ a : ℚ, l.foldl (fun acc r => acc + r.Samlet) a = a + (l.map (fun r => r.Samlet)).sum := by
  induction l with
  | nil => intro a; simp
  | cons x t ih => intro a; simp [ih, add_assoc]

/-- C6 — each line total is `hours × rate` (both in plain built invoices and
after the Ajour surcharge step), the printed subtotal is the sum of the line
totals, tax is 25% of the subtotal, the grand total is subtotal + tax; on the
fixture with hours [8, 6, 10] and rates [210, 255, 300] this gives
subtotal 6210, tax 1552.50 and total 7762.50. -/
theorem claim6_thm :
    (∀ (df : List Row) (hol : List Ts) (rate : Row → ℚ),
        ∀ l ∈ build_invoice_df df hol rate, l.Samlet = l.Timer * l.Takst)
    ∧ (∀ (df : List Row) (hol : List Ts), ∀ l ∈ inv_ajour_pipeline df hol,
        l.Samlet = l.Timer * l.Takst)
    ∧ (∀ inv : List Row, pdfSubtotal inv = (inv.map (fun r => r.Samlet)).sum
        ∧ pdfMoms inv = pdfSubtotal inv * (25 / 100)
        ∧ pdfGrand inv = pdfSubtotal inv + pdfMoms inv)
    ∧ (pdfSubtotal (build_invoice_df df6 [] rate6) = 6210
        ∧ pdfMoms (build_invoice_df df6 [] rate6) = 1552.5
        ∧ pdfGrand (build_invoice_df df6 [] rate6) = 7762.5) := by
  refine ⟨?_, ?_, ?_, ?_, ?_, ?_⟩
  · intro df hol rate l hl
    exact build_samlet hl
  · intro df hol l hl
    obtain ⟨p, _, rfl⟩ := List.mem_map.mp hl
    rfl
  · intro inv
    refine ⟨?_, rfl, rfl⟩
    rw [pdfSubtotal, foldl_add_samlet, zero_add]
  · norm_num [pdfSubtotal, build_invoice_df, List.insertionSort, List.orderedInsert,
      buildLine, df6, rate6, sortLE, rowLe, strLtL, Ts.normalize]
    simp
    norm_num
  · norm_num [pdfMoms, pdfSubtotal, build_invoice_df, List.insertionSort,
      List.orderedInsert, buildLine, df6, rate6, sortLE, rowLe, strLtL, Ts.normalize]
    simp
    norm_num
  · norm_num [pdfGrand, pdfMoms, pdfSubtotal, build_invoice_df, List.insertionSort,
      List.orderedInsert, buildLine, df6, rate6, sortLE, rowLe, strLtL, Ts.normalize]
    simp
    norm_num

/-- C6 — witness: the first fixture line satisfies `Samlet = Timer * Takst`. -/
theorem claim6_witness :
    ((build_invoice_df df6 [] rate6).headD row0).Samlet
      = ((build_invoice_df df6 [] rate6).headD row0).Timer
        * ((build_invoice_df df6 [] rate6).headD row0).Takst :=
  claim6_thm.1 df6 [] rate6 ((build_invoice_df df6 [] rate6).headD row0)
    (headD_mem (by decide) row0)

/-- In a list whose keys are distinct, each present key is hit exactly once. -/
theorem countP_key_eq_one {α β : Type} [DecidableEq β] (key : α → β) :
    ∀ l : List α, (l.map key).Nodup → ∀ t ∈ l.map key,
      l.countP (fun x => decide (key x = t)) = 1 := by
  intro l
  induction l with
  | nil => intro _ t ht; simp at ht
  | cons a l ih =>
      intro hnd t ht
      rw [List.map_cons, List.nodup_cons] at hnd
      obtain ⟨ha, hnd'⟩ := hnd
      rw [List.countP_cons]
      rcases List.mem_cons.mp ht with h | h
      · have hz : l.countP (fun x => decide (key x = t)) = 0 := by
          rw [List.countP_eq_zero]
          intro b hb hcontr
          exact ha (h ▸ of_decide_eq_true hcontr ▸ List.mem_map_of_mem key hb)
        simp [hz, h.symm]
      · have hne : key a ≠ t := fun he => ha (he ▸ h)
        rw [ih hnd' t h]
        simp [hne]

/-- Under distinct join keys, exactly one flag row matches a present key. -/
theorem filter_flags_length {df : List Row} (hdist : (df.map tripleOf).Nodup)
    {t : Ts × String × String} (htmem : t ∈ df.map tripleOf) :
    ((kirstenFlags df).filter (fun f => decide (f.1 = t))).length = 1 := by
  rw [← List.countP_eq_length_filter, kirstenFlags, List.countP_map]
  have : ((fun f : (Ts × String × String) × Bool => decide (f.1 = t))
        ∘ fun r => (tripleOf r, hasKirsten r.Jobfunktion_raw))
      = fun x => decide (tripleOf x = t) := rfl
  rw [this]
  exact countP_key_eq_one tripleOf df hdist t htmem

/-- A built line inherits its source row's join triple. -/
theorem tripleOf_buildLine (hol : List Ts) (rate : Row → ℚ) (r : Row) :
    tripleOf (buildLine hol rate r) = tripleOf r := rfl

/-- The triple of every built line is a triple of the input table. -/
theorem mem_build_triple {df : List Row} {hol : List Ts} {rate : Row → ℚ} {l : Row}
    (hl : l ∈ build_invoice_df df hol rate) : tripleOf l ∈ df.map tripleOf := by
  obtain ⟨r, hr, rfl⟩ := mem_build_iff.mp hl
  rw [tripleOf_buildLine]
  exact List.mem_map_of_mem tripleOf hr

/-- When every line matches exactly one flag row, the left merge is the map
pairing each line with its (unique) flag. -/
theorem mergeFlag_eq_map {inv : List Row} {flags : List ((Ts × String × String) × Bool)}
    (h : ∀ l ∈ inv, (flags.filter (fun f => decide (f.1 = tripleOf l))).length = 1) :
    mergeFlag inv flags = inv.map (fun l => (l, kflag flags l)) := by
  induction inv with
  | nil => rfl
  | cons a t ih =>
      have ha := h a (List.mem_cons_self a t)
      obtain ⟨x, hx⟩ := List.length_eq_one.mp ha
      have htail := ih (fun l hl => h l (List.mem_cons_of_mem a hl))
      unfold mergeFlag at htail ⊢
      rw [List.flatMap_cons, List.map_cons, htail]
      simp [hx, kflag]

/-- Under distinct join keys, the merged flag of a line with the same triple
as row `r` is `r`'s Kirsten flag. -/
theorem kflag_eq {df : List Row} (hdist : (df.map tripleOf).Nodup) {r : Row} (hr : r ∈ df)
    {l : Row} (ht : tripleOf l = tripleOf r) :
    kflag (kirstenFlags df) l = hasKirsten r.Jobfunktion_raw := by
  have hlen := filter_flags_length hdist (ht ▸ List.mem_map_of_mem tripleOf hr)
  obtain ⟨x, hx⟩ := List.length_eq_one.mp hlen
  have hxmem : x ∈ (kirstenFlags df).filter (fun f => decide (f.1 = tripleOf l)) := by
    rw [hx]; exact List.mem_cons_self x []
  rw [List.mem_filter] at hxmem
  obtain ⟨hxk, hxp⟩ := hxmem
  obtain ⟨r', hr', rfl⟩ := List.mem_map.mp hxk
  have htr : tripleOf r' = tripleOf r := by
    have h1 : tripleOf r' = tripleOf l := of_decide_eq_true hxp
    exact h1.trans ht
  have hrr : r' = r := List.inj_on_of_nodup_map hdist hr' hr htr
  subst hrr
  simp [kflag, hx]

/-- Under distinct join keys the Ajour surcharge step is a per-line map:
flagged lines get `surchRow`, the rest are untouched. -/
theorem pipeline_eq (df : List Row) (hol : List Ts) (hdist : (df.map tripleOf).Nodup) :
    inv_ajour_pipeline df hol
      = (build_invoice_df df hol beregn_takst_ajour).map
          (fun l => if kflag (kirstenFlags df) l then surchRow l else l) := by
  unfold inv_ajour_pipeline surcharge_step
  rw [mergeFlag_eq_map (fun l hl => filter_flags_length hdist (mem_build_triple hl)),
    List.map_map]
  apply List.map_congr_left
  intro l hl
  show apply_kirsten (l, kflag (kirstenFlags df) l) = _
  cases hk : kflag (kirstenFlags df) l
  · simp only [if_neg (by simp : ¬ false = true)]
    have hs := build_samlet hl
    cases l with
    | mk d m tp sm t p j jr hd tk sa =>
        simp only [apply_kirsten, if_neg (by simp : ¬ false = true)]
        simp at hs
        simp [hs]
  · simp [apply_kirsten, surchRow]

/-- C9 — under distinct (date, employee, window) triples, the surcharge step
maps each invoice line in place (preserving count and order): a line whose
raw location lacks "kirsten" is returned unchanged, and a flagged line
changes only `Takst` (+10) and `Samlet` (recomputed), all other columns
being untouched. -/
theorem claim9_thm (df : List Row) (hol : List Ts) (hdist : (df.map tripleOf).Nodup) :
    inv_ajour_pipeline df hol
      = (build_invoice_df df hol beregn_takst_ajour).map
          (fun l => if kflag (kirstenFlags df) l then surchRow l else l)
    ∧ (∀ l : Row, (surchRow l).Dato = l.Dato ∧ (surchRow l).Medarbejder = l.Medarbejder
        ∧ (surchRow l).Tidsperiode = l.Tidsperiode ∧ (surchRow l).StartMin = l.StartMin
        ∧ (surchRow l).Timer = l.Timer ∧ (surchRow l).Personale = l.Personale
        ∧ (surchRow l).Jobfunktion = l.Jobfunktion
        ∧ (surchRow l).Jobfunktion_raw = l.Jobfunktion_raw
        ∧ (surchRow l).Helligdag = l.Helligdag
        ∧ (surchRow l).Takst = l.Takst + 10
        ∧ (surchRow l).Samlet = l.Timer * (l.Takst + 10)) :=
  ⟨pipeline_eq df hol hdist,
   fun _ => ⟨rfl, rfl, rfl, rfl, rfl, rfl, rfl, rfl, rfl, rfl, rfl⟩⟩

/-- C9 — witness on a two-row table with distinct triples. -/
theorem claim9_witness :
    inv_ajour_pipeline wdf []
      = (build_invoice_df wdf [] beregn_takst_ajour).map
          (fun l => if kflag (kirstenFlags wdf) l then surchRow l else l) :=
  (claim9_thm wdf [] (by decide)).1

/-- C3 — under distinct triples, the invoice line coming from a clean row
whose raw location contains "kirsten" (case-insensitively) carries
`Takst = base rate + 10` and `Samlet = Timer * (base rate + 10)`, the base
rate being `beregn_takst_ajour` on the holiday-flagged row. -/
theorem claim3_thm (df : List Row) (hol : List Ts) (r : Row)
    (hdist : (df.map tripleOf).Nodup) (hr : r ∈ df)
    (hk : hasKirsten r.Jobfunktion_raw = true)
    (l : Row) (hl : l ∈ inv_ajour_pipeline df hol) (ht : tripleOf l = tripleOf r) :
    l.Takst = baseRate hol r + 10 ∧ l.Samlet = l.Timer * (baseRate hol r + 10) := by
  rw [pipeline_eq df hol hdist] at hl
  obtain ⟨l0, hl0, rfl⟩ := List.mem_map.mp hl
  have htid : tripleOf (if kflag (kirstenFlags df) l0 then surchRow l0 else l0)
      = tripleOf l0 := by
    by_cases hc : kflag (kirstenFlags df) l0 <;> simp [hc, surchRow, tripleOf]
  rw [htid] at ht
  obtain ⟨r0, hr0, rfl⟩ := mem_build_iff.mp hl0
  have hr0r : r0 = r := by
    refine List.inj_on_of_nodup_map hdist hr0 hr ?_
    rw [← tripleOf_buildLine hol beregn_takst_ajour r0]
    exact ht
  subst hr0r
  have hkf : kflag (kirstenFlags df) (buildLine hol beregn_takst_ajour r0) = true := by
    rw [kflag_eq hdist hr0 (tripleOf_buildLine hol beregn_takst_ajour r0)]
    exact hk
  simp only [hkf, if_true]
  exact ⟨rfl, rfl⟩

/-- C3 — witness: a single "Hos Kirsten" row is billed at base + 10. -/
theorem claim3_witness :
    ((inv_ajour_pipeline [rK] []).headD row0).Takst = baseRate [] rK + 10 :=
  (claim3_thm [rK] [] rK (by decide) (by decide) (by decide)
    ((inv_ajour_pipeline [rK] []).headD row0)
    (headD_mem (by decide) row0) (by decide)).1
